import Mathlib

/- Verification development for the sensor_alignment daemon (src/main.rs).

   Shallow embedding conventions:
   * f64 arithmetic (rotation parameters, the rotation products and the
     call to f64::round) is idealised as real-number arithmetic;
   * i32 values are integers; the Rust `+=` on the i32 accumulators is
     modelled with explicit two-complement wrapping (wrap32), and the
     Rust `as i32` cast applied to the rounded f64 is modelled with the
     saturating conversion (sat32) that Rust defines for float-to-int casts;
   * fallible external calls (device open, grab, virtual-device creation,
     event fetch) are modelled by oracles giving the outcome of each call;
   * the event loop is modelled per fetched batch: `processEvent` is the
     body of the `for event in input_device.fetch_events()?` loop and
     `processBatch` folds it over one batch, collecting the `emit` calls
     (each `emit(&[...])` is one batch of the output list). -/

namespace SensorAlignment

/-! Linux input-event constants, as exposed by the evdev crate. -/

def EV_SYN : ℕ := 0
def EV_KEY : ℕ := 1
def EV_REL : ℕ := 2
def REL_X : ℕ := 0
def REL_Y : ℕ := 1
def REL_WHEEL : ℕ := 8
def BTN_LEFT : ℕ := 272
def BTN_RIGHT : ℕ := 273
def BTN_MIDDLE : ℕ := 274

/-! i32 arithmetic. -/

def i32Min : ℤ := -(2 ^ 31)

def i32Max : ℤ := 2 ^ 31 - 1

/-- The value fits in an i32. -/
def inI32 (n : ℤ) : Prop := i32Min ≤ n ∧ n ≤ i32Max

instance (n : ℤ) : Decidable (inI32 n) :=
  inferInstanceAs (Decidable (i32Min ≤ n ∧ n ≤ i32Max))

/-- Two-complement wrap of an integer into i32 range: the result of the
Rust `+=` on i32 when the mathematical sum leaves the range. -/
def wrap32 (n : ℤ) : ℤ := (n + 2 ^ 31) % 2 ^ 32 - 2 ^ 31

/-- Saturating conversion to i32: the semantics of the Rust `as i32`
cast applied to a (finite) f64. -/
def sat32 (n : ℤ) : ℤ := max i32Min (min i32Max n)

/-! The rotation transform (src/main.rs lines 168-169). -/

/-- Round half away from zero: the behaviour of f64::round, idealised
over the reals. -/
noncomputable def roundAway (x : ℝ) : ℤ := if 0 ≤ x then ⌊x + 1 / 2⌋ else ⌈x - 1 / 2⌉

/-- Degrees to radians, as f64::to_radians (line 27). -/
noncomputable def toRadians (deg : ℝ) : ℝ := deg * (Real.pi / 180)

/-- The (cos_a, sin_a) pair computed once in main from the configured
angle in degrees (lines 26-29). -/
noncomputable def rotationParams (angleDeg : ℝ) : ℝ × ℝ :=
  (Real.cos (toRadians angleDeg), Real.sin (toRadians angleDeg))

/-- The rotation transform of the event loop (lines 168-169):
new_dx = (dx as f64 * cos_a - dy as f64 * sin_a).round() as i32 and
new_dy = (dx as f64 * sin_a + dy as f64 * cos_a).round() as i32,
with the saturating float-to-int cast made explicit. -/
noncomputable def rotate (sin_a cos_a : ℝ) (dx dy : ℤ) : ℤ × ℤ :=
  (sat32 (roundAway ((dx : ℝ) * cos_a - (dy : ℝ) * sin_a)),
   sat32 (roundAway ((dx : ℝ) * sin_a + (dy : ℝ) * cos_a)))

/-- Specification-side rotation formula, written from the words of the
spec (section 4.1): new_dx = round(dx*cos_a - dy*sin_a) and
new_dy = round(dx*sin_a + dy*cos_a), with no conversion after the
rounding.  Kept separate from `rotate` so that the two can be compared. -/
noncomputable def rotationSpecFormula (sin_a cos_a : ℝ) (dx dy : ℤ) : ℤ × ℤ :=
  (roundAway ((dx : ℝ) * cos_a - (dy : ℝ) * sin_a),
   roundAway ((dx : ℝ) * sin_a + (dy : ℝ) * cos_a))

/-! The event loop (src/main.rs lines 145-195). -/

/-- One input event as the loop observes it: event type, event code and
i32 value.  Timestamps play no role in the loop and are omitted. -/
structure InputEvent where
  eventType : ℕ
  code : ℕ
  value : ℤ
deriving DecidableEq

/-- The body of the for-loop over one fetched batch (lines 156-192):
from the accumulator (dx, dy) and the event, the updated accumulator and
the emit calls made for that event, each emit call being one inner list. -/
noncomputable def processEvent (sin_a cos_a : ℝ) (st : ℤ × ℤ) (e : InputEvent) :
    (ℤ × ℤ) × List (List InputEvent) :=
  if e.eventType = EV_REL then
    if e.code = REL_X then ((wrap32 (st.1 + e.value), st.2), [])
    else if e.code = REL_Y then ((st.1, wrap32 (st.2 + e.value)), [])
    else (st, [[e]])
  else if e.eventType = EV_SYN then
    if st.1 ≠ 0 ∨ st.2 ≠ 0 then
      ((0, 0),
        [[⟨EV_REL, REL_X, (rotate sin_a cos_a st.1 st.2).1⟩,
          ⟨EV_REL, REL_Y, (rotate sin_a cos_a st.1 st.2).2⟩,
          e]])
    else (st, [[e]])
  else (st, [[e]])

/-- Folding the loop body over one fetched batch of events, collecting
the emit calls in order. -/
noncomputable def processBatch (sin_a cos_a : ℝ) (st : ℤ × ℤ) :
    List InputEvent → (ℤ × ℤ) × List (List InputEvent)
  | [] => (st, [])
  | e :: es =>
    ((processBatch sin_a cos_a (processEvent sin_a cos_a st e).1 es).1,
     (processEvent sin_a cos_a st e).2 ++
       (processBatch sin_a cos_a (processEvent sin_a cos_a st e).1 es).2)

/-- The event is relative motion on the X or Y axis, the two kinds of
event the loop coalesces. -/
def isXY (e : InputEvent) : Bool :=
  e.eventType == EV_REL && (e.code == REL_X || e.code == REL_Y)

/-! Capability defaulting (lines 41-45 and 104-124). -/

/-- default_rel_axes (lines 104-113): REL_X, REL_Y, REL_WHEEL. -/
def defaultRelAxes : Finset ℕ := {REL_X, REL_Y, REL_WHEEL}

/-- default_keys (lines 115-124): BTN_LEFT, BTN_RIGHT, BTN_MIDDLE. -/
def defaultKeys : Finset ℕ := {BTN_LEFT, BTN_RIGHT, BTN_MIDDLE}

/-- The capability query as consumed in main (lines 41-45): the evdev
calls supported_relative_axes and supported_keys return an Option that
is none exactly when the device does not advertise the capability type,
and unwrap_or substitutes the default set in that case. -/
def capsOrDefault (query : Option (Finset ℕ)) (dflt : Finset ℕ) : Finset ℕ :=
  query.getD dflt

/-! The retry policy and the supervisor loop (lines 23-102). -/

/-- Observable actions of the retry policy and of the supervisor. -/
inductive REvent where
  | diag (line : String)
  | sleep (seconds : ℕ)
  | ungrab
deriving DecidableEq

/-- The diagnostic line printed by with_retry on a failure (line 97). -/
def diagMsg (name err : String) (seconds : ℕ) : String :=
  name ++ " failed: " ++ err ++ ". Retrying in " ++ toString seconds ++ " seconds..."

/-- Model of fn with_retry (lines 89-102).  The input list gives the
outcomes of the successive calls of the one wrapped action; the result
is none while no call has succeeded, that is, the Rust loop is still
running, and otherwise the trace of diagnostics and sleeps together with
the value of the first successful call.  The Rust function returns only
through the Ok branch, so a returned error is not representable. -/
def withRetry {α : Type} (name : String) (seconds : ℕ) :
    List (Except String α) → Option (List REvent × α)
  | [] => none
  | Except.ok v :: _ => some ([], v)
  | Except.error e :: rest =>
    match withRetry name seconds rest with
    | none => none
    | some (tr, v) =>
      some (REvent.diag (diagMsg name e seconds) :: REvent.sleep seconds :: tr, v)

/-- Outcomes of the fallible external calls, one entry per call.  For
open, create and grab, none means the call succeeded and some e that it
failed with message e.  For the event loop, some e means that run of the
loop eventually fails with e, and none that it runs with no failure. -/
structure Oracle where
  openFail : ℕ → Option String
  createFail : ℕ → Option String
  grabFail : ℕ → Option String
  loopErr : ℕ → Option String

/-- Control position inside fn main (lines 23-87). -/
inductive Phase where
  | acquiring
  | creating
  | grabbing
  | looping
  | runningForever
  | exited (err : String)
deriving DecidableEq

/-- The phase in which main has returned an error. -/
def Phase.isExited : Phase → Bool
  | Phase.exited _ => true
  | _ => false

/-- State of the supervisor machine: control position, how many times
each fallible call has run, and the trace of observable actions. -/
structure MState where
  phase : Phase
  openCalls : ℕ
  createCalls : ℕ
  grabCalls : ℕ
  loopCalls : ℕ
  trace : List REvent
deriving DecidableEq

def initState : MState := ⟨Phase.acquiring, 0, 0, 0, 0, []⟩

/-- One attempt step of fn main.  Each step performs the next fallible
call at the current control position:
* acquiring: one call of create_input_device inside with_retry
  (lines 32-39); on failure with_retry prints its diagnostic and sleeps
  10 seconds, then runs the same action again;
* creating: the same for create_virtual_device (lines 47-54);
* grabbing: the direct input_device.grab() with the question-mark
  operator (line 72); on failure main returns the error;
* looping: one run of event_loop inside with_retry (lines 74-85); the
  closure ungrabs the device after the run, with_retry prints and
  sleeps, and because the success type of event_loop is the never type
  the wrapped action can never return Ok, so with_retry can only run the
  closure again: control never leaves this call, and in particular it
  never returns to acquiring. -/
def mainStep (o : Oracle) (s : MState) : MState :=
  match s.phase with
  | Phase.acquiring =>
    match o.openFail s.openCalls with
    | none => { s with phase := Phase.creating, openCalls := s.openCalls + 1 }
    | some e =>
      { s with openCalls := s.openCalls + 1,
               trace := s.trace ++
                 [REvent.diag (diagMsg "Creating input device" e 10), REvent.sleep 10] }
  | Phase.creating =>
    match o.createFail s.createCalls with
    | none => { s with phase := Phase.grabbing, createCalls := s.createCalls + 1 }
    | some e =>
      { s with createCalls := s.createCalls + 1,
               trace := s.trace ++
                 [REvent.diag (diagMsg "Creating virtual device" e 10), REvent.sleep 10] }
  | Phase.grabbing =>
    match o.grabFail s.grabCalls with
    | none => { s with phase := Phase.looping, grabCalls := s.grabCalls + 1 }
    | some e => { s with phase := Phase.exited e, grabCalls := s.grabCalls + 1 }
  | Phase.looping =>
    match o.loopErr s.loopCalls with
    | none => { s with phase := Phase.runningForever, loopCalls := s.loopCalls + 1 }
    | some e =>
      { s with loopCalls := s.loopCalls + 1,
               trace := s.trace ++
                 [REvent.ungrab, REvent.diag (diagMsg "Event loop" e 10), REvent.sleep 10] }
  | Phase.runningForever => s
  | Phase.exited _ => s

/-- Run n attempt steps of fn main. -/
def runMain (o : Oracle) : ℕ → MState
  | 0 => initState
  | n + 1 => mainStep o (runMain o n)

/-- Every sleep in the trace lasts 10 seconds. -/
def sleepTen : REvent → Bool
  | REvent.sleep n => n == 10
  | _ => true

def allSleepsTen (tr : List REvent) : Bool := tr.all sleepTen

/-- Environment in which the physical device stays unplugged after a
first successful start: acquisition, creation and grab succeed, every
run of the event loop fails. -/
def unplugOracle : Oracle :=
  ⟨fun _ => none, fun _ => none, fun _ => none, fun _ => some "unplugged"⟩

/-- Environment in which the direct grab in main fails. -/
def grabFailOracle : Oracle :=
  ⟨fun _ => none, fun _ => none, fun _ => some "device busy", fun _ => none⟩

/-- Environment in which every external call succeeds. -/
def allOkOracle : Oracle :=
  ⟨fun _ => none, fun _ => none, fun _ => none, fun _ => none⟩

/-- A relative-X motion event with the given i32 delta. -/
def relXEvent (v : ℤ) : InputEvent := ⟨EV_REL, REL_X, v⟩

/-- An angle, in degrees, whose radian value is arctan (4/3), so that
its cosine and sine are exactly 3/5 and 4/5. -/
noncomputable def sampleAngle : ℝ := Real.arctan (4 / 3) * (180 / Real.pi)

end SensorAlignment

namespace SensorAlignment

/-! Basic lemmas about the numeric core. -/

theorem wrap32_eq_of_inI32 {n : ℤ} (h : inI32 n) : wrap32 n = n := by
  rcases h with ⟨h1, h2⟩
  simp only [i32Min, i32Max] at h1 h2
  unfold wrap32
  omega

theorem sat32_eq_of_inI32 {n : ℤ} (h : inI32 n) : sat32 n = n := by
  rcases h with ⟨h1, h2⟩
  unfold sat32
  rw [min_def, max_def]
  split_ifs <;> (simp only [i32Min, i32Max] at *; try omega)

theorem sat32_close {d r : ℤ} (hd : inI32 d) (h : |r - d| ≤ 1) : |sat32 r - d| ≤ 1 := by
  rcases hd with ⟨h1, h2⟩
  rw [abs_le] at h ⊢
  unfold sat32
  rw [min_def, max_def]
  split_ifs <;> (simp only [i32Min, i32Max] at *; try omega)

theorem roundAway_intCast (n : ℤ) : roundAway (n : ℝ) = n := by
  unfold roundAway
  rcases le_or_lt 0 (n : ℝ) with h | h
  · rw [if_pos h, add_comm, Int.floor_add_int]
    norm_num
  · rw [if_neg (not_le.mpr h), show ((n : ℝ) - 1 / 2) = (-(1 / 2) + n) by ring,
      Int.ceil_add_int]
    norm_num

theorem roundAway_sub_le (x : ℝ) : |(roundAway x : ℝ) - x| ≤ 1 / 2 := by
  unfold roundAway
  rcases le_or_lt 0 x with h | h
  · rw [if_pos h, abs_le]
    constructor
    · have := Int.lt_floor_add_one (x + 1 / 2)
      linarith
    · have := Int.floor_le (x + 1 / 2)
      linarith
  · rw [if_neg (not_le.mpr h), abs_le]
    constructor
    · have := Int.le_ceil (x - 1 / 2)
      linarith
    · have := Int.ceil_lt_add_one (x - 1 / 2)
      linarith

theorem roundAway_eq_of_nonneg {x : ℝ} {n : ℤ} (hx : 0 ≤ x)
    (h1 : (n : ℝ) ≤ x + 1 / 2) (h2 : x + 1 / 2 < (n : ℝ) + 1) : roundAway x = n := by
  unfold roundAway
  rw [if_pos hx, Int.floor_eq_iff]
  exact ⟨h1, by exact_mod_cast h2⟩

theorem roundAway_eq_of_neg {x : ℝ} {n : ℤ} (hx : x < 0)
    (h1 : (n : ℝ) - 1 < x - 1 / 2) (h2 : x - 1 / 2 ≤ (n : ℝ)) : roundAway x = n := by
  unfold roundAway
  rw [if_neg (not_le.mpr hx), Int.ceil_eq_iff]
  exact ⟨by exact_mod_cast h1, h2⟩

theorem rotate_zero_one {a b : ℤ} (ha : inI32 a) (hb : inI32 b) :
    rotate 0 1 a b = (a, b) := by
  unfold rotate
  rw [show ((a : ℝ) * 1 - (b : ℝ) * 0) = (a : ℝ) by ring,
    show ((a : ℝ) * 0 + (b : ℝ) * 1) = (b : ℝ) by ring,
    roundAway_intCast, roundAway_intCast, sat32_eq_of_inI32 ha, sat32_eq_of_inI32 hb]

/-! Lemmas about the event-loop dispatch. -/

theorem processEvent_relX (s c : ℝ) (st : ℤ × ℤ) (e : InputEvent)
    (ht : e.eventType = EV_REL) (hc : e.code = REL_X) :
    processEvent s c st e = ((wrap32 (st.1 + e.value), st.2), []) := by
  unfold processEvent
  rw [if_pos ht, if_pos hc]

theorem processEvent_relY (s c : ℝ) (st : ℤ × ℤ) (e : InputEvent)
    (ht : e.eventType = EV_REL) (hc : e.code = REL_Y) :
    processEvent s c st e = ((st.1, wrap32 (st.2 + e.value)), []) := by
  unfold processEvent
  have hx : e.code ≠ REL_X := by rw [hc]; simp [REL_X, REL_Y]
  rw [if_pos ht, if_neg hx, if_pos hc]

theorem processEvent_relOther (s c : ℝ) (st : ℤ × ℤ) (e : InputEvent)
    (ht : e.eventType = EV_REL) (hx : e.code ≠ REL_X) (hy : e.code ≠ REL_Y) :
    processEvent s c st e = (st, [[e]]) := by
  unfold processEvent
  rw [if_pos ht, if_neg hx, if_neg hy]

theorem processEvent_syn_nonzero (s c : ℝ) (dx dy : ℤ) (e : InputEvent)
    (ht : e.eventType = EV_SYN) (h : ¬(dx = 0 ∧ dy = 0)) :
    processEvent s c (dx, dy) e =
      ((0, 0),
       [[⟨EV_REL, REL_X, (rotate s c dx dy).1⟩,
         ⟨EV_REL, REL_Y, (rotate s c dx dy).2⟩, e]]) := by
  unfold processEvent
  have hr : e.eventType ≠ EV_REL := by rw [ht]; simp [EV_SYN, EV_REL]
  rw [if_neg hr, if_pos ht, if_pos (not_and_or.mp h)]

theorem processEvent_syn_zero (s c : ℝ) (dx dy : ℤ) (e : InputEvent)
    (ht : e.eventType = EV_SYN) (h : dx = 0 ∧ dy = 0) :
    processEvent s c (dx, dy) e = ((dx, dy), [[e]]) := by
  unfold processEvent
  have hr : e.eventType ≠ EV_REL := by rw [ht]; simp [EV_SYN, EV_REL]
  rw [if_neg hr, if_pos ht, if_neg (by simpa using h)]

theorem processEvent_other (s c : ℝ) (st : ℤ × ℤ) (e : InputEvent)
    (hr : e.eventType ≠ EV_REL) (hs : e.eventType ≠ EV_SYN) :
    processEvent s c st e = (st, [[e]]) := by
  unfold processEvent
  rw [if_neg hr, if_neg hs]

theorem processEvent_flatten_filter (s c : ℝ) (st : ℤ × ℤ) (e : InputEvent) :
    ((processEvent s c st e).2.flatten).filter (fun x => !isXY x)
      = [e].filter (fun x => !isXY x) := by
  unfold processEvent
  split_ifs with h1 h2 h3 h4 h5
  · simp [isXY, h1, h2, REL_X, REL_Y]
  · simp [isXY, h1, h3, REL_X, REL_Y]
  · simp [isXY, h1, h2, h3]
  · simp [isXY, h1, h4, EV_SYN, EV_REL, REL_X, REL_Y]
  · simp [isXY, h1, h4, EV_SYN, EV_REL]
  · simp [isXY, h1, h4]

theorem processBatch_filter (s c : ℝ) (es : List InputEvent) : ∀ st : ℤ × ℤ,
    ((processBatch s c st es).2.flatten).filter (fun x => !isXY x)
      = es.filter (fun x => !isXY x) := by
  induction es with
  | nil => intro st; simp [processBatch]
  | cons e es ih =>
    intro st
    show (((processEvent s c st e).2 ++
        (processBatch s c (processEvent s c st e).1 es).2).flatten).filter (fun x => !isXY x)
      = (e :: es).filter (fun x => !isXY x)
    rw [List.flatten_append, List.filter_append, processEvent_flatten_filter, ih]
    cases h : isXY e <;> simp [List.filter_cons, h]

/-! Lemmas about relative-X accumulation, for the overflow analysis. -/

/-- The accumulator value produced by a run of relative-X deltas. -/
def accWrap (d : ℤ) : List ℤ → ℤ
  | [] => d
  | v :: vs => accWrap (wrap32 (d + v)) vs

theorem processBatch_relX (s c : ℝ) (vs : List ℤ) : ∀ d dy : ℤ,
    processBatch s c (d, dy) (vs.map relXEvent) = ((accWrap d vs, dy), []) := by
  induction vs with
  | nil => intro d dy; simp [processBatch, accWrap]
  | cons v vs ih =>
    intro d dy
    show ((processBatch s c (processEvent s c (d, dy) (relXEvent v)).1 (vs.map relXEvent)).1,
        (processEvent s c (d, dy) (relXEvent v)).2 ++
          (processBatch s c (processEvent s c (d, dy) (relXEvent v)).1 (vs.map relXEvent)).2)
      = ((accWrap d (v :: vs), dy), [])
    rw [processEvent_relX s c (d, dy) (relXEvent v) rfl rfl]
    show ((processBatch s c (wrap32 (d + v), dy) (vs.map relXEvent)).1,
        [] ++ (processBatch s c (wrap32 (d + v), dy) (vs.map relXEvent)).2)
      = ((accWrap (wrap32 (d + v)) vs, dy), [])
    rw [ih (wrap32 (d + v)) dy]
    simp

theorem accWrap_eq_sum (vs : List ℤ) : ∀ d : ℤ,
    (∀ n, n ≤ vs.length → inI32 (d + (vs.take n).sum)) → accWrap d vs = d + vs.sum := by
  induction vs with
  | nil => intro d _; simp [accWrap]
  | cons v vs ih =>
    intro d h
    have h1 : inI32 (d + v) := by
      have := h 1 (by simp)
      simpa using this
    show accWrap (wrap32 (d + v)) vs = d + (v :: vs).sum
    rw [wrap32_eq_of_inI32 h1, ih (d + v) ?_]
    · simp [add_assoc]
    · intro n hn
      have := h (n + 1) (by simpa using hn)
      simpa [add_assoc] using this

/-! Lemmas about the supervisor machine. -/

theorem mainStep_unplug_looping (s : MState) (h : s.phase = Phase.looping) :
    (mainStep unplugOracle s).phase = Phase.looping := by
  simp [mainStep, h, unplugOracle]

theorem mainStep_trace_mono (o : Oracle) (s : MState) {x : REvent} (hx : x ∈ s.trace) :
    x ∈ (mainStep o s).trace := by
  unfold mainStep
  cases s.phase with
  | acquiring => cases o.openFail s.openCalls <;> simp [hx]
  | creating => cases o.createFail s.createCalls <;> simp [hx]
  | grabbing => cases o.grabFail s.grabCalls <;> simp [hx]
  | looping => cases o.loopErr s.loopCalls <;> simp [hx]
  | runningForever => simpa using hx
  | exited e => simpa using hx

theorem mainStep_no_exit (o : Oracle) (s : MState) (hg : ∀ k, o.grabFail k = none)
    (h : s.phase.isExited = false) : (mainStep o s).phase.isExited = false := by
  unfold mainStep
  cases hp : s.phase with
  | acquiring => cases o.openFail s.openCalls <;> simp [hp, Phase.isExited]
  | creating => cases o.createFail s.createCalls <;> simp [hp, Phase.isExited]
  | grabbing => rw [hg s.grabCalls]; simp [Phase.isExited]
  | looping => cases o.loopErr s.loopCalls <;> simp [hp, Phase.isExited]
  | runningForever => simp [hp, Phase.isExited]
  | exited e => rw [hp] at h; simp [Phase.isExited] at h

theorem runMain_no_exit (o : Oracle) (hg : ∀ k, o.grabFail k = none) :
    ∀ n, (runMain o n).phase.isExited = false
  | 0 => rfl
  | n + 1 => mainStep_no_exit o _ hg (runMain_no_exit o hg n)

theorem mainStep_sleeps (o : Oracle) (s : MState) (h : allSleepsTen s.trace = true) :
    allSleepsTen (mainStep o s).trace = true := by
  have h1 : s.trace.all sleepTen = true := h
  unfold mainStep
  cases s.phase with
  | acquiring =>
    cases o.openFail s.openCalls <;> simp [allSleepsTen, List.all_append, sleepTen, h1]
  | creating =>
    cases o.createFail s.createCalls <;> simp [allSleepsTen, List.all_append, sleepTen, h1]
  | grabbing => cases o.grabFail s.grabCalls <;> simpa [allSleepsTen] using h1
  | looping =>
    cases o.loopErr s.loopCalls <;> simp [allSleepsTen, List.all_append, sleepTen, h1]
  | runningForever => simpa [allSleepsTen] using h1
  | exited e => simpa [allSleepsTen] using h1

theorem runMain_sleeps (o : Oracle) : ∀ n, allSleepsTen (runMain o n).trace = true
  | 0 => rfl
  | n + 1 => mainStep_sleeps o _ (runMain_sleeps o n)

/-! Lemmas about the retry policy. -/

theorem withRetry_success {α : Type} (name : String) (seconds : ℕ) (errs : List String)
    (v : α) (rest : List (Except String α)) :
    withRetry name seconds (errs.map Except.error ++ Except.ok v :: rest)
      = some (errs.flatMap
          (fun e => [REvent.diag (diagMsg name e seconds), REvent.sleep seconds]), v) := by
  induction errs with
  | nil => simp [withRetry]
  | cons e es ih => simp [withRetry, ih]

theorem withRetry_never {α : Type} (name : String) (seconds : ℕ) (errs : List String) :
    withRetry name seconds (errs.map Except.error) = (none : Option (List REvent × α)) := by
  induction errs with
  | nil => rfl
  | cons e es ih => simp [withRetry, ih]

/-! Lemmas about the rotation parameters. -/

theorem toRadians_zero : toRadians 0 = 0 := by
  unfold toRadians
  ring

theorem toRadians_neg (θ : ℝ) : toRadians (-θ) = -toRadians θ := by
  unfold toRadians
  ring

theorem rotationParams_zero : rotationParams 0 = (1, 0) := by
  unfold rotationParams
  rw [toRadians_zero, Real.cos_zero, Real.sin_zero]

theorem rotationParams_neg (θ : ℝ) :
    rotationParams (-θ) = ((rotationParams θ).1, -(rotationParams θ).2) := by
  unfold rotationParams
  rw [toRadians_neg, Real.cos_neg, Real.sin_neg]

theorem rotationParams_sq (θ : ℝ) :
    (rotationParams θ).2 ^ 2 + (rotationParams θ).1 ^ 2 = 1 := by
  unfold rotationParams
  exact Real.sin_sq_add_cos_sq _

theorem rotationParams_sample : rotationParams sampleAngle = (3 / 5, 4 / 5) := by
  unfold rotationParams sampleAngle toRadians
  have harg : Real.arctan (4 / 3) * (180 / Real.pi) * (Real.pi / 180) = Real.arctan (4 / 3) := by
    field_simp
  rw [harg]
  have h0 : Real.sqrt (1 + (4 / 3 : ℝ) ^ 2) = 5 / 3 := by
    rw [show (1 + (4 / 3 : ℝ) ^ 2) = (5 / 3) ^ 2 by norm_num, Real.sqrt_sq (by norm_num)]
  rw [Real.cos_arctan, Real.sin_arctan, h0]
  norm_num

/-! The approximate-involution argument. -/

theorem cast_abs_le_one {a b : ℤ} (h : |(a : ℝ) - (b : ℝ)| ≤ 3 / 2) : |a - b| ≤ 1 := by
  have h2 : ((|a - b| : ℤ) : ℝ) ≤ 3 / 2 := by
    rw [Int.cast_abs, Int.cast_sub]
    exact h
  have h3 : (|a - b| : ℤ) < 2 := by
    exact_mod_cast h2.trans_lt (by norm_num : (3 / 2 : ℝ) < 2)
  omega

theorem roundAway_close_int (x : ℝ) (d : ℤ) (h : |x - (d : ℝ)| ≤ 1) :
    |roundAway x - d| ≤ 1 := by
  apply cast_abs_le_one
  calc |(roundAway x : ℝ) - (d : ℝ)|
      ≤ |(roundAway x : ℝ) - x| + |x - (d : ℝ)| := abs_sub_le _ _ _
    _ ≤ 1 / 2 + 1 := add_le_add (roundAway_sub_le x) h
    _ = 3 / 2 := by norm_num

theorem weighted_half_bound (a b e1 e2 : ℝ) (ha : |a| ≤ 1) (hb : |b| ≤ 1)
    (he1 : |e1| ≤ 1 / 2) (he2 : |e2| ≤ 1 / 2) : |e1 * a + e2 * b| ≤ 1 := by
  calc |e1 * a + e2 * b| ≤ |e1 * a| + |e2 * b| := abs_add _ _
    _ = |e1| * |a| + |e2| * |b| := by rw [abs_mul, abs_mul]
    _ ≤ 1 / 2 * 1 + 1 / 2 * 1 :=
      add_le_add (mul_le_mul he1 ha (abs_nonneg a) (by norm_num))
        (mul_le_mul he2 hb (abs_nonneg b) (by norm_num))
    _ = 1 := by norm_num

theorem rotate_unrotate_close (s c : ℝ) (hsc : s ^ 2 + c ^ 2 = 1) (dx dy : ℤ)
    (hdx : inI32 dx) (hdy : inI32 dy)
    (h1 : inI32 (roundAway ((dx : ℝ) * c - (dy : ℝ) * s)))
    (h2 : inI32 (roundAway ((dx : ℝ) * s + (dy : ℝ) * c))) :
    |(rotate (-s) c (rotate s c dx dy).1 (rotate s c dx dy).2).1 - dx| ≤ 1 ∧
    |(rotate (-s) c (rotate s c dx dy).1 (rotate s c dx dy).2).2 - dy| ≤ 1 := by
  have hc : |c| ≤ 1 := by
    rw [← sq_le_one_iff_abs_le_one]
    nlinarith [sq_nonneg s]
  have hs : |s| ≤ 1 := by
    rw [← sq_le_one_iff_abs_le_one]
    nlinarith [sq_nonneg c]
  have hrot : rotate s c dx dy =
      (roundAway ((dx : ℝ) * c - (dy : ℝ) * s), roundAway ((dx : ℝ) * s + (dy : ℝ) * c)) := by
    unfold rotate
    rw [sat32_eq_of_inI32 h1, sat32_eq_of_inI32 h2]
  rw [hrot]
  have eA := roundAway_sub_le ((dx : ℝ) * c - (dy : ℝ) * s)
  have eB := roundAway_sub_le ((dx : ℝ) * s + (dy : ℝ) * c)
  constructor
  · show |sat32 (roundAway
        (((roundAway ((dx : ℝ) * c - (dy : ℝ) * s) : ℤ) : ℝ) * c
          - ((roundAway ((dx : ℝ) * s + (dy : ℝ) * c) : ℤ) : ℝ) * (-s))) - dx| ≤ 1
    apply sat32_close hdx
    apply roundAway_close_int
    have key : ((roundAway ((dx : ℝ) * c - (dy : ℝ) * s) : ℤ) : ℝ) * c
        - ((roundAway ((dx : ℝ) * s + (dy : ℝ) * c) : ℤ) : ℝ) * (-s) - (dx : ℝ)
        = (((roundAway ((dx : ℝ) * c - (dy : ℝ) * s) : ℤ) : ℝ)
            - ((dx : ℝ) * c - (dy : ℝ) * s)) * c
          + (((roundAway ((dx : ℝ) * s + (dy : ℝ) * c) : ℤ) : ℝ)
            - ((dx : ℝ) * s + (dy : ℝ) * c)) * s := by
      linear_combination (dx : ℝ) * hsc
    rw [key]
    exact weighted_half_bound c s _ _ hc hs eA eB
  · show |sat32 (roundAway
        (((roundAway ((dx : ℝ) * c - (dy : ℝ) * s) : ℤ) : ℝ) * (-s)
          + ((roundAway ((dx : ℝ) * s + (dy : ℝ) * c) : ℤ) : ℝ) * c)) - dy| ≤ 1
    apply sat32_close hdy
    apply roundAway_close_int
    have key : ((roundAway ((dx : ℝ) * c - (dy : ℝ) * s) : ℤ) : ℝ) * (-s)
        + ((roundAway ((dx : ℝ) * s + (dy : ℝ) * c) : ℤ) : ℝ) * c - (dy : ℝ)
        = (((roundAway ((dx : ℝ) * c - (dy : ℝ) * s) : ℤ) : ℝ)
            - ((dx : ℝ) * c - (dy : ℝ) * s)) * (-s)
          + (((roundAway ((dx : ℝ) * s + (dy : ℝ) * c) : ℤ) : ℝ)
            - ((dx : ℝ) * s + (dy : ℝ) * c)) * c := by
      linear_combination (dy : ℝ) * hsc
    rw [key]
    exact weighted_half_bound (-s) c _ _ (by rw [abs_neg]; exact hs) hc eA eB

/-! Claim theorems. -/

/-- Claim C1: on a synchronization event, if the accumulated pair is not
(0, 0) the loop emits one batch holding, in order, the rotated
relative-X event, the rotated relative-Y event and the original
synchronization event, and resets the accumulator to (0, 0); if the
pair is (0, 0) it emits only the original synchronization event. -/
theorem sync_event_flush (s c : ℝ) (dx dy : ℤ) (e : InputEvent)
    (he : e.eventType = EV_SYN) :
    (¬(dx = 0 ∧ dy = 0) →
      processEvent s c (dx, dy) e =
        ((0, 0),
         [[⟨EV_REL, REL_X, (rotate s c dx dy).1⟩,
           ⟨EV_REL, REL_Y, (rotate s c dx dy).2⟩, e]])) ∧
    ((dx = 0 ∧ dy = 0) →
      processEvent s c (dx, dy) e = ((dx, dy), [[e]])) :=
  ⟨processEvent_syn_nonzero s c dx dy e he, processEvent_syn_zero s c dx dy e he⟩

/-- Witness for C1 at the identity rotation, accumulator (3, 4) and a
concrete synchronization event. -/
theorem sync_event_flush_witness :
    processEvent 0 1 (3, 4) ⟨EV_SYN, 0, 0⟩ =
      ((0, 0), [[⟨EV_REL, REL_X, 3⟩, ⟨EV_REL, REL_Y, 4⟩, ⟨EV_SYN, 0, 0⟩]]) := by
  have h := (sync_event_flush 0 1 3 4 ⟨EV_SYN, 0, 0⟩ rfl).1 (by decide)
  rw [h, rotate_zero_one (by decide) (by decide)]

/-- Claim C2: the claim says that on any failure of the event loop the
supervisor releases the capture and restarts the whole sequence from
physical-device acquisition.  The code releases the capture, but the
restart never happens: with_retry around the event loop can only return
through its Ok branch and the success type of event_loop is the never
type, so once the machine reaches the event-loop retry it stays there
forever, re-running the loop on the same device handles.  With a
permanently failing event loop the phase is looping at every later step
and never again acquiring, while the ungrab of the capture does occur. -/
theorem event_loop_failure_never_reacquires :
    (∀ n, (runMain unplugOracle (n + 3)).phase = Phase.looping) ∧
    (∀ n, REvent.ungrab ∈ (runMain unplugOracle (n + 4)).trace) := by
  constructor
  · intro n
    induction n with
    | zero => rfl
    | succ k ih => exact mainStep_unplug_looping _ ih
  · intro n
    induction n with
    | zero =>
      have h3 : (runMain unplugOracle 3).phase = Phase.looping := rfl
      show REvent.ungrab ∈ (mainStep unplugOracle (runMain unplugOracle 3)).trace
      unfold mainStep
      rw [h3]
      simp [unplugOracle]
    | succ k ih => exact mainStep_trace_mono unplugOracle _ ih

/-- Counterexample to C3 as stated: the direct grab in main (line 72)
is guarded by the question-mark operator, so its failure returns from
main and ends the process instead of re-entering the retry policy. -/
theorem grab_error_returns_from_main :
    (runMain grabFailOracle 3).phase = Phase.exited "device busy" ∧
    (runMain grabFailOracle 3).phase.isExited = true :=
  ⟨rfl, rfl⟩

/-- Claim C3 (amended): every failure of the operations wrapped in
with_retry, that is device open and capture during acquisition, virtual
device creation, and I/O during the event loop, re-enters the retry
policy and never returns from main; the sole exception is the direct
exclusive-capture call in main after device creation, whose failure
propagates out of main.  Whenever that direct grab succeeds, no run of
the supervisor ever reaches an exited state. -/
theorem errors_reenter_retry_no_exit (o : Oracle) (n : ℕ)
    (hg : ∀ k, o.grabFail k = none) :
    (runMain o n).phase.isExited = false :=
  runMain_no_exit o hg n

/-- Witness for C3 (amended): with open, create and grab succeeding and
the event loop failing on every run, no step exits. -/
theorem errors_reenter_retry_no_exit_witness :
    (runMain unplugOracle 7).phase.isExited = false :=
  errors_reenter_retry_no_exit unplugOracle 7 (fun _ => rfl)

/-- Counterexample to C4 as stated: the code converts the rounded value
with the saturating `as i32` cast, so for (sin_a, cos_a) = (1, 0), the
parameters of a 90-degree rotation, and (dx, dy) = (0, -2^31) the code
produces 2^31 - 1 where the claimed formula round(dx*cos_a - dy*sin_a)
gives 2^31. -/
theorem rotation_formula_counterexample :
    rotationParams 90 = (0, 1) ∧
    rotate 1 0 0 (-(2 ^ 31)) = (2 ^ 31 - 1, 0) ∧
    rotationSpecFormula 1 0 0 (-(2 ^ 31)) = (2 ^ 31, 0) ∧
    rotate 1 0 0 (-(2 ^ 31)) ≠ rotationSpecFormula 1 0 0 (-(2 ^ 31)) := by
  have hrp : rotationParams 90 = (0, 1) := by
    unfold rotationParams
    rw [show toRadians 90 = Real.pi / 2 by unfold toRadians; ring,
      Real.cos_pi_div_two, Real.sin_pi_div_two]
  have a1 : ((0 : ℤ) : ℝ) * 0 - ((-(2 ^ 31) : ℤ) : ℝ) * 1 = ((2 ^ 31 : ℤ) : ℝ) := by
    push_cast
    ring
  have a2 : ((0 : ℤ) : ℝ) * 1 + ((-(2 ^ 31) : ℤ) : ℝ) * 0 = ((0 : ℤ) : ℝ) := by
    push_cast
    ring
  have hrot : rotate 1 0 0 (-(2 ^ 31)) = (2 ^ 31 - 1, 0) := by
    unfold rotate
    rw [a1, a2, roundAway_intCast, roundAway_intCast]
    decide
  have hspec : rotationSpecFormula 1 0 0 (-(2 ^ 31)) = (2 ^ 31, 0) := by
    unfold rotationSpecFormula
    rw [a1, a2, roundAway_intCast, roundAway_intCast]
  exact ⟨hrp, hrot, hspec, by rw [hrot, hspec]; decide⟩

/-- Claim C4 (amended): the rotation transform computes the rounded
pair round(dx*cos_a - dy*sin_a), round(dx*sin_a + dy*cos_a) exactly
whenever both rounded values fit in i32; outside that range the final
saturating cast clamps them.  The transform is a pure function of its
arguments. -/
theorem rotate_matches_spec_formula (s c : ℝ) (dx dy : ℤ)
    (h1 : inI32 (roundAway ((dx : ℝ) * c - (dy : ℝ) * s)))
    (h2 : inI32 (roundAway ((dx : ℝ) * s + (dy : ℝ) * c))) :
    rotate s c dx dy = rotationSpecFormula s c dx dy := by
  unfold rotate rotationSpecFormula
  rw [sat32_eq_of_inI32 h1, sat32_eq_of_inI32 h2]

/-- Witness for C4 (amended) at the identity parameters and (3, 4). -/
theorem rotate_matches_spec_formula_witness :
    rotate 0 1 3 4 = rotationSpecFormula 0 1 3 4 := by
  have e1 : ((3 : ℤ) : ℝ) * 1 - ((4 : ℤ) : ℝ) * 0 = ((3 : ℤ) : ℝ) := by
    push_cast
    ring
  have e2 : ((3 : ℤ) : ℝ) * 0 + ((4 : ℤ) : ℝ) * 1 = ((4 : ℤ) : ℝ) := by
    push_cast
    ring
  apply rotate_matches_spec_formula
  · rw [e1, roundAway_intCast]
    decide
  · rw [e2, roundAway_intCast]
    decide

/-- Counterexample to C5 as stated: the code substitutes the default
capability sets only when the query is absent; a present but empty set
is used as is, not replaced by the defaults. -/
theorem caps_empty_not_defaulted :
    capsOrDefault (some ∅) defaultRelAxes = ∅ ∧ (∅ : Finset ℕ) ≠ defaultRelAxes :=
  ⟨rfl, by decide⟩

/-- Claim C5 (amended): when the capability query is absent the process
substitutes the documented default sets, relative axes X, Y, wheel and
buttons left, right, middle; when the query is present its result is
used unchanged, even if empty. -/
theorem caps_default_only_when_absent :
    capsOrDefault none defaultRelAxes = defaultRelAxes ∧
    capsOrDefault none defaultKeys = defaultKeys ∧
    (∀ s : Finset ℕ, capsOrDefault (some s) defaultRelAxes = s) ∧
    (∀ s : Finset ℕ, capsOrDefault (some s) defaultKeys = s) ∧
    defaultRelAxes = {REL_X, REL_Y, REL_WHEEL} ∧
    defaultKeys = {BTN_LEFT, BTN_RIGHT, BTN_MIDDLE} :=
  ⟨rfl, rfl, fun _ => rfl, fun _ => rfl, rfl, rfl⟩

/-- Claim C6: within one fetched batch the forwarded events keep the
order in which they were read: deleting the coalesced X/Y motion on
both sides, the flattened output equals the input, so every
synchronization event is forwarded exactly once, in order; non-relative
non-sync events and non-X/Y relative events are forwarded immediately
and unmodified, and X/Y relative events are only accumulated. -/
theorem batch_order_preserved (s c : ℝ) :
    (∀ (st : ℤ × ℤ) (es : List InputEvent),
        ((processBatch s c st es).2.flatten).filter (fun x => !isXY x)
          = es.filter (fun x => !isXY x)) ∧
    (∀ (st : ℤ × ℤ) (e : InputEvent), e.eventType ≠ EV_REL → e.eventType ≠ EV_SYN →
        processEvent s c st e = (st, [[e]])) ∧
    (∀ (st : ℤ × ℤ) (e : InputEvent), e.eventType = EV_REL → e.code ≠ REL_X →
        e.code ≠ REL_Y → processEvent s c st e = (st, [[e]])) ∧
    (∀ (st : ℤ × ℤ) (e : InputEvent), e.eventType = EV_REL → e.code = REL_X →
        processEvent s c st e = ((wrap32 (st.1 + e.value), st.2), [])) ∧
    (∀ (st : ℤ × ℤ) (e : InputEvent), e.eventType = EV_REL → e.code = REL_Y →
        processEvent s c st e = ((st.1, wrap32 (st.2 + e.value)), [])) :=
  ⟨fun st es => processBatch_filter s c es st,
   fun st e h1 h2 => processEvent_other s c st e h1 h2,
   fun st e h1 h2 h3 => processEvent_relOther s c st e h1 h2 h3,
   fun st e h1 h2 => processEvent_relX s c st e h1 h2,
   fun st e h1 h2 => processEvent_relY s c st e h1 h2⟩

/-- Witness for C6 at concrete events: a button press and a wheel event
pass through unchanged, X and Y motion is only accumulated, and the
filtered flattened output of a one-event batch equals its input. -/
theorem batch_order_preserved_witness :
    processEvent 0 1 (3, 4) ⟨EV_KEY, BTN_LEFT, 1⟩ = ((3, 4), [[⟨EV_KEY, BTN_LEFT, 1⟩]]) ∧
    processEvent 0 1 (3, 4) ⟨EV_REL, REL_WHEEL, -2⟩
      = ((3, 4), [[⟨EV_REL, REL_WHEEL, -2⟩]]) ∧
    processEvent 0 1 (3, 4) ⟨EV_REL, REL_X, 5⟩ = ((wrap32 (3 + 5), 4), []) ∧
    processEvent 0 1 (3, 4) ⟨EV_REL, REL_Y, 5⟩ = ((3, wrap32 (4 + 5)), []) ∧
    ((processBatch 0 1 (0, 0) [⟨EV_KEY, BTN_LEFT, 1⟩]).2.flatten).filter (fun x => !isXY x)
      = ([⟨EV_KEY, BTN_LEFT, 1⟩] : List InputEvent).filter (fun x => !isXY x) :=
  ⟨(batch_order_preserved 0 1).2.1 (3, 4) _ (by decide) (by decide),
   (batch_order_preserved 0 1).2.2.1 (3, 4) _ rfl (by decide) (by decide),
   (batch_order_preserved 0 1).2.2.2.1 (3, 4) _ rfl rfl,
   (batch_order_preserved 0 1).2.2.2.2 (3, 4) _ rfl rfl,
   (batch_order_preserved 0 1).1 (0, 0) _⟩

/-- Claim C7: the retry policy emits exactly one diagnostic line of the
documented shape per failed call, each followed by one fixed-interval
sleep, retries the same operation without bound, returns the result of
the first success, and all sleeps at the call sites in main last 10
seconds. -/
theorem retry_policy_contract (α : Type) :
    (∀ (name : String) (seconds : ℕ) (errs : List String) (v : α)
        (rest : List (Except String α)),
        withRetry name seconds (errs.map Except.error ++ Except.ok v :: rest)
          = some (errs.flatMap
              (fun e => [REvent.diag (diagMsg name e seconds), REvent.sleep seconds]), v)) ∧
    (∀ (name : String) (seconds : ℕ) (errs : List String),
        withRetry name seconds (errs.map Except.error)
          = (none : Option (List REvent × α))) ∧
    (∀ (o : Oracle) (n : ℕ), allSleepsTen (runMain o n).trace = true) :=
  ⟨fun name seconds errs v rest => withRetry_success name seconds errs v rest,
   fun name seconds errs => withRetry_never name seconds errs,
   fun o n => runMain_sleeps o n⟩

/-- Claim C8: for angle 0 degrees the rotation transform is exactly the
identity on every i32 pair. -/
theorem rotation_zero_identity (dx dy : ℤ) (hdx : inI32 dx) (hdy : inI32 dy) :
    rotate (rotationParams 0).2 (rotationParams 0).1 dx dy = (dx, dy) := by
  rw [rotationParams_zero]
  exact rotate_zero_one hdx hdy

/-- Witness for C8 at (3, -7). -/
theorem rotation_zero_identity_witness :
    rotate (rotationParams 0).2 (rotationParams 0).1 3 (-7) = (3, -7) :=
  rotation_zero_identity 3 (-7) (by decide) (by decide)

/-- Counterexample to C9 as stated: at the angle whose radian value is
arctan (4/3), so cosine 3/5 and sine 4/5, and the i32 pair
(2147483647, 2147483647), the first rotation saturates its second
component at the i32 maximum, and rotating back by the opposite angle
returns a first component 687194767 below the original dx, far beyond
the claimed one-unit tolerance. -/
theorem rotation_involution_counterexample :
    (rotate (rotationParams (-sampleAngle)).2 (rotationParams (-sampleAngle)).1
        (rotate (rotationParams sampleAngle).2 (rotationParams sampleAngle).1
          2147483647 2147483647).1
        (rotate (rotationParams sampleAngle).2 (rotationParams sampleAngle).1
          2147483647 2147483647).2).1 = 1460288880 ∧
    ¬ (|(rotate (rotationParams (-sampleAngle)).2 (rotationParams (-sampleAngle)).1
          (rotate (rotationParams sampleAngle).2 (rotationParams sampleAngle).1
            2147483647 2147483647).1
          (rotate (rotationParams sampleAngle).2 (rotationParams sampleAngle).1
            2147483647 2147483647).2).1 - 2147483647| ≤ 1 ∧
        |(rotate (rotationParams (-sampleAngle)).2 (rotationParams (-sampleAngle)).1
          (rotate (rotationParams sampleAngle).2 (rotationParams sampleAngle).1
            2147483647 2147483647).1
          (rotate (rotationParams sampleAngle).2 (rotationParams sampleAngle).1
            2147483647 2147483647).2).2 - 2147483647| ≤ 1) := by
  have hp : rotationParams sampleAngle = (3 / 5, 4 / 5) := rotationParams_sample
  have hn : rotationParams (-sampleAngle) = (3 / 5, -(4 / 5)) := by
    rw [rotationParams_neg, hp]
  have a1 : ((2147483647 : ℤ) : ℝ) * (3 / 5) - ((2147483647 : ℤ) : ℝ) * (4 / 5)
      = -(2147483647 / 5) := by
    push_cast
    ring
  have a2 : ((2147483647 : ℤ) : ℝ) * (4 / 5) + ((2147483647 : ℤ) : ℝ) * (3 / 5)
      = 15032385529 / 5 := by
    push_cast
    ring
  have r1 : roundAway (-(2147483647 / 5) : ℝ) = -429496729 :=
    roundAway_eq_of_neg (by norm_num) (by norm_num) (by norm_num)
  have r2 : roundAway ((15032385529 / 5 : ℝ)) = 3006477106 :=
    roundAway_eq_of_nonneg (by norm_num) (by norm_num) (by norm_num)
  have hfirst : rotate (4 / 5) (3 / 5) 2147483647 2147483647
      = (-429496729, 2147483647) := by
    unfold rotate
    rw [a1, a2, r1, r2]
    decide
  have a3 : ((-429496729 : ℤ) : ℝ) * (3 / 5) - ((2147483647 : ℤ) : ℝ) * (-(4 / 5))
      = 7301444401 / 5 := by
    push_cast
    ring
  have r3 : roundAway ((7301444401 / 5 : ℝ)) = 1460288880 :=
    roundAway_eq_of_nonneg (by norm_num) (by norm_num) (by norm_num)
  have hsecond : (rotate (-(4 / 5)) (3 / 5) (-429496729) 2147483647).1 = 1460288880 := by
    show sat32 (roundAway (((-429496729 : ℤ) : ℝ) * (3 / 5)
      - ((2147483647 : ℤ) : ℝ) * (-(4 / 5)))) = 1460288880
    rw [a3, r3]
    decide
  have main1 : (rotate (rotationParams (-sampleAngle)).2 (rotationParams (-sampleAngle)).1
      (rotate (rotationParams sampleAngle).2 (rotationParams sampleAngle).1
        2147483647 2147483647).1
      (rotate (rotationParams sampleAngle).2 (rotationParams sampleAngle).1
        2147483647 2147483647).2).1 = 1460288880 := by
    rw [hp, hn]
    show (rotate (-(4 / 5)) (3 / 5)
      (rotate (4 / 5) (3 / 5) 2147483647 2147483647).1
      (rotate (4 / 5) (3 / 5) 2147483647 2147483647).2).1 = 1460288880
    rw [hfirst]
    exact hsecond
  refine ⟨main1, ?_⟩
  intro h
  rw [main1] at h
  rcases h with ⟨hA, _⟩
  norm_num at hA

/-- Claim C9 (amended): for every angle and every i32 pair whose first
rotation does not saturate, that is, both rounded components of the
rotated pair fit in i32, rotating by the angle and then by its opposite
returns within one integer unit per component of the original pair;
this covers possible saturation in the second rotation.  The
counterexample shows the bound can fail when the first rotation
saturates. -/
theorem rotation_inverse_within_one (θ : ℝ) (dx dy : ℤ) (hdx : inI32 dx) (hdy : inI32 dy)
    (h1 : inI32 (roundAway ((dx : ℝ) * (rotationParams θ).1
      - (dy : ℝ) * (rotationParams θ).2)))
    (h2 : inI32 (roundAway ((dx : ℝ) * (rotationParams θ).2
      + (dy : ℝ) * (rotationParams θ).1))) :
    |(rotate (rotationParams (-θ)).2 (rotationParams (-θ)).1
        (rotate (rotationParams θ).2 (rotationParams θ).1 dx dy).1
        (rotate (rotationParams θ).2 (rotationParams θ).1 dx dy).2).1 - dx| ≤ 1 ∧
    |(rotate (rotationParams (-θ)).2 (rotationParams (-θ)).1
        (rotate (rotationParams θ).2 (rotationParams θ).1 dx dy).1
        (rotate (rotationParams θ).2 (rotationParams θ).1 dx dy).2).2 - dy| ≤ 1 := by
  rw [rotationParams_neg]
  exact rotate_unrotate_close (rotationParams θ).2 (rotationParams θ).1
    (rotationParams_sq θ) dx dy hdx hdy h1 h2

/-- Witness for C9 (amended) at angle 0 and the pair (3, 4). -/
theorem rotation_inverse_within_one_witness :
    |(rotate (rotationParams (-(0 : ℝ))).2 (rotationParams (-(0 : ℝ))).1
        (rotate (rotationParams 0).2 (rotationParams 0).1 3 4).1
        (rotate (rotationParams 0).2 (rotationParams 0).1 3 4).2).1 - 3| ≤ 1 ∧
    |(rotate (rotationParams (-(0 : ℝ))).2 (rotationParams (-(0 : ℝ))).1
        (rotate (rotationParams 0).2 (rotationParams 0).1 3 4).1
        (rotate (rotationParams 0).2 (rotationParams 0).1 3 4).2).2 - 4| ≤ 1 := by
  refine rotation_inverse_within_one 0 3 4 (by decide) (by decide) ?_ ?_
  · have e : ((3 : ℤ) : ℝ) * (rotationParams 0).1 - ((4 : ℤ) : ℝ) * (rotationParams 0).2
        = ((3 : ℤ) : ℝ) := by
      rw [rotationParams_zero]
      norm_num
    rw [e, roundAway_intCast]
    decide
  · have e : ((3 : ℤ) : ℝ) * (rotationParams 0).2 + ((4 : ℤ) : ℝ) * (rotationParams 0).1
        = ((4 : ℤ) : ℝ) := by
      rw [rotationParams_zero]
      norm_num
    rw [e, roundAway_intCast]
    decide

/-- Claim C10: the motion accumulation is fixed-width i32 arithmetic:
a sequence of two maximal relative-X deltas wraps the accumulator to
-2, which is not their mathematical sum, and the accumulator equals the
mathematical sum of the deltas of the frame exactly when the sum of
every initial segment of the deltas stays within i32 range. -/
theorem accumulator_uses_i32 :
    ((processBatch 0 1 (0, 0) [relXEvent 2147483647, relXEvent 2147483647]).1.1 = -2 ∧
      (2147483647 + 2147483647 : ℤ) ≠ -2) ∧
    (∀ (s c : ℝ) (vs : List ℤ),
      (∀ n, n ≤ vs.length → inI32 ((vs.take n).sum)) →
      (processBatch s c (0, 0) (vs.map relXEvent)).1.1 = vs.sum) := by
  constructor
  · constructor
    · rw [show [relXEvent 2147483647, relXEvent 2147483647]
          = ([2147483647, 2147483647] : List ℤ).map relXEvent from rfl,
        processBatch_relX 0 1 [2147483647, 2147483647] 0 0]
      show accWrap 0 [2147483647, 2147483647] = -2
      decide
    · decide
  · intro s c vs h
    rw [processBatch_relX s c vs 0 0]
    show accWrap 0 vs = vs.sum
    have key := accWrap_eq_sum vs 0 (by intro n hn; simpa using h n hn)
    simpa using key

/-- Witness for C10 on the in-range sequence of deltas 5, 7. -/
theorem accumulator_uses_i32_witness :
    (processBatch 0 1 (0, 0) (([5, 7] : List ℤ).map relXEvent)).1.1 = 12 := by
  have h := accumulator_uses_i32.2 0 1 [5, 7]
    (by intro n hn; simp at hn; interval_cases n <;> decide)
  norm_num [List.sum_cons, List.sum_nil] at h
  exact h

end SensorAlignment
